import Mathlib

/-!
# quantumpass: the password formatter and the generate action

A shallow embedding of `main.go`.

* Go `byte` values are `Fin 256`; Go `int` and `rune` values are `Int`
  (the conversion `rune(x)` wraps to 32 bits, `%` is Go's truncated remainder).
* A Go `string` is its sequence of bytes (`List Nat`, every entry below 256);
  `string(r)` for a rune `r` is the UTF-8 encoding of `r`.
* A run-time panic is an `Except.error`.
* Counted `for i := 0; i < length; i++` loops are recursions on the number of
  iterations that remain, carrying the counter `i`.
-/

namespace QuantumPass

/-! ## Go values -/

/-- A Go `byte`. -/
abbrev Byte := Fin 256

/-- A Go `string`, as the sequence of its bytes. -/
abbrev GoString := List Nat

/-- The run-time panics the formatter can raise. -/
inductive GoPanic where
  /-- Raised by `make([]T, n)` with a negative `n`. -/
  | makesliceLenOutOfRange
  /-- Raised by `xs[i]` when `i` is not a valid index of `xs`. -/
  | indexOutOfRange (index : Int) (len : Nat)
  /-- Raised by `s[lo:]` when `lo` exceeds `len(s)`. -/
  | sliceBoundsOutOfRange (low : Nat) (len : Nat)
  deriving DecidableEq, Repr

/-- The conversion `rune(x)` of an `int`: wrap-around to a signed 32-bit value. -/
def rune (x : Int) : Int :=
  (x + 2 ^ 31) % 2 ^ 32 - 2 ^ 31

/-- The conversion `string(r)` of a rune: the UTF-8 encoding of `r`, and the
encoding of U+FFFD when `r` is not a valid code point. -/
def runeToString (r : Int) : GoString :=
  if r < 0 ∨ 0x10FFFF < r ∨ (0xD800 ≤ r ∧ r ≤ 0xDFFF) then [0xEF, 0xBF, 0xBD]
  else
    let n := r.toNat
    if n < 0x80 then [n]
    else if n < 0x800 then [0xC0 + n / 64, 0x80 + n % 64]
    else if n < 0x10000 then [0xE0 + n / 4096, 0x80 + n / 64 % 64, 0x80 + n % 64]
    else [0xF0 + n / 262144, 0x80 + n / 4096 % 64, 0x80 + n / 64 % 64, 0x80 + n % 64]

/-- A Go string literal: the UTF-8 bytes of its characters. -/
def goStr (s : String) : GoString :=
  s.toList.flatMap (fun c => runeToString (c.toNat : Int))

/-- The index expression `xs[i]` with a natural-number index. -/
def index {α : Type} (xs : List α) (i : Nat) : Except GoPanic α :=
  match xs[i]? with
  | some x => .ok x
  | none => .error (.indexOutOfRange i xs.length)

/-- The index expression `xs[i]` with an `int` index. -/
def indexInt {α : Type} (xs : List α) (i : Int) : Except GoPanic α :=
  if i < 0 then .error (.indexOutOfRange i xs.length) else index xs i.toNat

/-- The assignment `xs[i] = v`. -/
def assignIndex {α : Type} (xs : List α) (i : Nat) (v : α) : Except GoPanic (List α) :=
  if i < xs.length then .ok (xs.set i v) else .error (.indexOutOfRange i xs.length)

/-- The slice expression `s[lo:]` of a string. -/
def sliceFrom (s : GoString) (lo : Nat) : Except GoPanic GoString :=
  if lo ≤ s.length then .ok (s.drop lo) else .error (.sliceBoundsOutOfRange lo s.length)

/-! ## processPasswordData -/

/-- The constant `specialChars := "!@#$%^&*"`. -/
def specialChars : GoString := goStr "!@#$%^&*"

/-- The first loop of `processPasswordData`:
`for i := 0; i < length; i++ { quantumNumbers[i] = int(data[i]) }`,
with `remaining` iterations to go from counter `i`. -/
def parseLoop (data : List Byte) :
    (remaining : Nat) → (i : Nat) → (quantumNumbers : List Int) → Except GoPanic (List Int)
  | 0, _, quantumNumbers => .ok quantumNumbers
  | remaining + 1, i, quantumNumbers => do
    let b ← index data i
    let quantumNumbers ← assignIndex quantumNumbers i ((b.val : Nat) : Int)
    parseLoop data remaining (i + 1) quantumNumbers

/-- The `switch charType` statement of the second loop, for the quantum number
`q = quantumNumbers[i]`; the result is the value of `char` after the switch
(`0`, the zero value of `var char rune`, when no case is taken). -/
def switchChar (q : Int) (includeSpecialChar includeNumbers : Bool) : Except GoPanic Int :=
  let charType := Int.tmod q 4
  if charType = 0 then .ok (rune (Int.tmod q 26 + 97))
  else if charType = 1 then .ok (rune (Int.tmod q 26 + 65))
  else if charType = 2 then
    if includeNumbers then .ok (rune (Int.tmod q 10 + 48))
    else .ok (rune (Int.tmod q 26 + 97))
  else if charType = 3 then
    if includeSpecialChar then do
      let c ← indexInt specialChars (Int.tmod q (specialChars.length : Int))
      .ok (rune (c : Int))
    else .ok (rune (Int.tmod q 26 + 97))
  else .ok 0

/-- The second loop of `processPasswordData`:
`for i := 0; i < length; i++ { ...; password += string(char) }`,
with `remaining` iterations to go from counter `i`. -/
def buildLoop (quantumNumbers : List Int) (includeSpecialChar includeNumbers : Bool) :
    (remaining : Nat) → (i : Nat) → (password : GoString) → Except GoPanic GoString
  | 0, _, password => .ok password
  | remaining + 1, i, password => do
    let q ← index quantumNumbers i
    let char ← switchChar q includeSpecialChar includeNumbers
    buildLoop quantumNumbers includeSpecialChar includeNumbers remaining (i + 1)
      (password ++ runeToString char)

/-- The function `processPasswordData` of `main.go`, with `make([]int, length)`
as the Go language specification gives it: a panic for a negative length and a
zeroed slice otherwise. `processPasswordDataOnRuntime` adds the allocation
limit of the runtime. -/
def processPasswordData (data : List Byte)
    (startUppercase includeSpecialChar includeNumbers : Bool) (length : Int) :
    Except GoPanic GoString :=
  if length < 0 then .error .makesliceLenOutOfRange
  else do
    let quantumNumbers ← parseLoop data length.toNat 0 (List.replicate length.toNat 0)
    let password ← buildLoop quantumNumbers includeSpecialChar includeNumbers length.toNat 0 []
    if startUppercase ∧ password.length > 0 then do
      let q ← index quantumNumbers 0
      let rest ← sliceFrom password 1
      .ok (runeToString (rune (Int.tmod q 26 + 65)) ++ rest)
    else .ok password

/-- The size in bytes of an `int` on a 64-bit platform. -/
def sizeofInt : Int := 8

/-- The constant `maxAlloc` of the Go runtime on a 64-bit platform (48 bits of
heap address space): the largest allocation `makeslice` accepts. -/
def maxAlloc : Int := 2 ^ 48

/-- The function `processPasswordData` as the Go runtime executes it:
`make([]int, length)` at its first statement panics with
`makeslice: len out of range` when the slice would take more than `maxAlloc`
bytes (or `length` is negative), before any byte of `data` is read. -/
def processPasswordDataOnRuntime (data : List Byte)
    (startUppercase includeSpecialChar includeNumbers : Bool) (length : Int) :
    Except GoPanic GoString :=
  if length < 0 ∨ maxAlloc < sizeofInt * length then .error .makesliceLenOutOfRange
  else processPasswordData data startUppercase includeSpecialChar includeNumbers length

/-! ## The generate action -/

/-- A Go `error` value. -/
inductive GoError where
  /-- An error made by `fmt.Errorf`, with its message. -/
  | errorf (msg : GoString)
  /-- A `*strconv.NumError` with its fields `Func`, `Num` and the message of `Err`. -/
  | numError (func num err : GoString)
  /-- An error returned by another library call (`io/ioutil`, `encoding/json`,
  `net/http`), with its message. -/
  | library (msg : GoString)
  deriving DecidableEq, Repr

/-- The struct `Config`. -/
structure Config where
  /-- The field `APIKey`, read from the JSON key `api_key`. -/
  APIKey : GoString
  deriving DecidableEq, Repr

/-- An `http.Request`, by the parts the program sets. -/
structure HttpRequest where
  /-- The request method. -/
  method : GoString
  /-- The request URL. -/
  url : GoString
  /-- The request headers, as key-value pairs. -/
  header : List (GoString × GoString)
  deriving DecidableEq, Repr

/-- An `http.Response`, by the parts the program reads. -/
structure HttpResponse where
  /-- The field `StatusCode`. -/
  StatusCode : Int
  /-- What `ioutil.ReadAll(resp.Body)` returns: the bytes read and the error, if any. -/
  Body : List Byte × Option GoError
  deriving DecidableEq, Repr

/-- The library and operating-system calls the program makes. -/
structure World where
  /-- The call `strconv.Atoi(s)`. -/
  Atoi : GoString → Except GoError Int
  /-- The call `ioutil.ReadFile(filename)`. -/
  ReadFile : GoString → Except GoError (List Byte)
  /-- The call `json.Unmarshal(file, &config)`: the configuration it leaves
  behind and its error, if any. -/
  Unmarshal : List Byte → Config → Config × Option GoError
  /-- The call `http.NewRequest(method, url, nil)`. -/
  NewRequest : GoString → GoString → Except GoError HttpRequest
  /-- The call `client.Do(req)`. -/
  Do : HttpRequest → Except GoError HttpResponse

/-- The function `loadConfig` of `main.go`. -/
def loadConfig (w : World) (filename : GoString) : Config × Option GoError :=
  let config : Config := ⟨[]⟩
  match w.ReadFile filename with
  | .error err => (config, some err)
  | .ok file =>
    match w.Unmarshal file config with
    | (config, some err) => (config, some err)
    | (config, none) => (config, none)

/-- The constant `API_URL`. -/
def API_URL : GoString := goStr "https://api.quantumnumbers.anu.edu.au"

/-- The verb `%d` of `fmt.Sprintf` applied to an `int`. -/
def formatInt (n : Int) : GoString := goStr (toString n)

/-- The bytes allowed in a header name (`validHeaderFieldByte` of
`net/textproto`): letters, digits and the punctuation of an HTTP token. -/
def validHeaderFieldByte (c : Nat) : Bool :=
  decide ((48 ≤ c ∧ c ≤ 57) ∨ (65 ≤ c ∧ c ≤ 90) ∨ (97 ≤ c ∧ c ≤ 122)) ||
    [33, 35, 36, 37, 38, 39, 42, 43, 45, 46, 94, 95, 96, 124, 126].contains c

/-- The loop of `textproto.CanonicalMIMEHeaderKey`: the first letter and every
letter after a hyphen in upper case, the other letters in lower case. -/
def canonicalLoop : Bool → GoString → GoString
  | _, [] => []
  | upper, c :: rest =>
    let c :=
      if upper ∧ 97 ≤ c ∧ c ≤ 122 then c - 32
      else if ¬ upper ∧ 65 ≤ c ∧ c ≤ 90 then c + 32
      else c
    c :: canonicalLoop (c == 45) rest

/-- The function `textproto.CanonicalMIMEHeaderKey`: a key holding a byte that
is not allowed in a header name is returned unchanged. -/
def canonicalMIMEHeaderKey (s : GoString) : GoString :=
  if s.all validHeaderFieldByte then canonicalLoop true s else s

/-- The call `req.Header.Set(key, value)`: the entry for the canonical form of
`key` is replaced by `value`. -/
def headerSet (header : List (GoString × GoString)) (key value : GoString) :
    List (GoString × GoString) :=
  (canonicalMIMEHeaderKey key, value)
    :: header.filter (fun kv => kv.1 ≠ canonicalMIMEHeaderKey key)

/-- The function `GetQuantumNumbers` of `main.go`. -/
def GetQuantumNumbers (w : World) (apiKey : GoString) (length : Int) (dtype : GoString)
    (blockSize : Int) : List Byte × Option GoError :=
  let url := API_URL ++ goStr "?length=" ++ formatInt length ++ goStr "&type=" ++ dtype
    ++ goStr "&size=" ++ formatInt blockSize
  match w.NewRequest (goStr "GET") url with
  | .error err => ([], some err)
  | .ok req =>
    let req : HttpRequest :=
      ⟨req.method, req.url, headerSet req.header (goStr "x-api-key") apiKey⟩
    match w.Do req with
    | .error err => ([], some err)
    | .ok resp =>
      if resp.StatusCode ≠ 200 then
        let body := resp.Body.1
        ([], some (.errorf (goStr "API request failed: " ++ body.map (fun b => b.val))))
      else resp.Body

/-- The widgets the generate action reads and writes. -/
structure Ui where
  /-- The text of `lengthEntry`. -/
  lengthEntry : GoString
  /-- The state of `uppercaseCheckbox`. -/
  uppercaseCheckbox : Bool
  /-- The state of `specialCharCheckbox`. -/
  specialCharCheckbox : Bool
  /-- The state of `numbersCheckbox`. -/
  numbersCheckbox : Bool
  /-- The text of `passwordLabel`. -/
  passwordLabel : GoString
  deriving DecidableEq, Repr

/-- A call the generate action makes to a function of `main.go`. -/
inductive Call where
  /-- The call `loadConfig(filename)`. -/
  | loadConfig (filename : GoString)
  /-- The call `GetQuantumNumbers(apiKey, length, dtype, blockSize)`. -/
  | GetQuantumNumbers (apiKey : GoString) (length : Int) (dtype : GoString) (blockSize : Int)
  /-- The call `processPasswordData(data, startUppercase, includeSpecialChar,
  includeNumbers, length)`. -/
  | processPasswordData (data : List Byte)
      (startUppercase includeSpecialChar includeNumbers : Bool) (length : Int)
  deriving DecidableEq, Repr

/-- What one run of the generate action leaves behind: the widgets, the calls
it made in order, and the panic that ended it, if any. -/
structure Outcome where
  /-- The widgets after the run. -/
  ui : Ui
  /-- The calls made, in order. -/
  calls : List Call
  /-- The panic that ended the run, if any. -/
  panic : Option GoPanic
  deriving DecidableEq, Repr

/-- The call `passwordLabel.SetText(text)`. -/
def setText (ui : Ui) (text : GoString) : Ui :=
  ⟨ui.lengthEntry, ui.uppercaseCheckbox, ui.specialCharCheckbox, ui.numbersCheckbox, text⟩

/-- The callback of `generateButton` in `main`. -/
def generate (w : World) (ui : Ui) : Outcome :=
  let lengthStr := ui.lengthEntry
  match w.Atoi lengthStr with
  | .error _ =>
    ⟨setText ui (goStr "Invalid length. Please enter a number between 0 and 255."), [], none⟩
  | .ok length =>
    if length < 0 ∨ length > 255 then
      ⟨setText ui (goStr "Invalid length. Please enter a number between 0 and 255."), [], none⟩
    else
      let startUppercase := ui.uppercaseCheckbox
      let includeSpecialChar := ui.specialCharCheckbox
      let includeNumbers := ui.numbersCheckbox
      let call1 := Call.loadConfig (goStr "config.json")
      match loadConfig w (goStr "config.json") with
      | (config, err) =>
        if err.isSome ∨ config.APIKey = [] then
          ⟨setText ui (goStr "Add API key to config.json"), [call1], none⟩
        else
          let call2 := Call.GetQuantumNumbers config.APIKey length (goStr "uint8") 100
          match GetQuantumNumbers w config.APIKey length (goStr "uint8") 100 with
          | (data, err) =>
            if err.isSome then
              ⟨setText ui (goStr "Error fetching quantum numbers: Add API key to config.json"),
                [call1, call2], none⟩
            else
              let call3 := Call.processPasswordData data startUppercase includeSpecialChar
                includeNumbers length
              match processPasswordDataOnRuntime data startUppercase includeSpecialChar
                  includeNumbers length with
              | .error p => ⟨ui, [call1, call2, call3], some p⟩
              | .ok password => ⟨setText ui password, [call1, call2, call3], none⟩

/-! ## Sample worlds -/

/-- The library function `strconv.Atoi` on a 64-bit platform, after its
documentation: an optional sign, then one or more decimal digits, and a value
that fits an `int`. -/
def strconvAtoi (s : GoString) : Except GoError Int :=
  let signed : Bool × GoString :=
    match s with
    | 43 :: rest => (false, rest)
    | 45 :: rest => (true, rest)
    | _ => (false, s)
  let digits := signed.2
  if digits = [] ∨ ¬ digits.all (fun c => decide (48 ≤ c ∧ c ≤ 57)) then
    .error (.numError (goStr "Atoi") s (goStr "invalid syntax"))
  else
    let n : Nat := digits.foldl (fun acc c => acc * 10 + (c - 48)) 0
    let v : Int := if signed.1 then -(n : Int) else (n : Int)
    if v < -(2 ^ 63) ∨ 2 ^ 63 - 1 < v then
      .error (.numError (goStr "Atoi") s (goStr "value out of range"))
    else .ok v

/-- The bytes of a string literal, as a byte slice. -/
def goBytes (s : String) : List Byte := (goStr s).map (fun c => (Fin.ofNat c : Byte))

/-- A world without `config.json`: reading any file fails. -/
def worldNoConfig : World where
  Atoi := strconvAtoi
  ReadFile := fun _ => .error (.library (goStr "open config.json: no such file or directory"))
  Unmarshal := fun _ config => (config, none)
  NewRequest := fun method url => .ok ⟨method, url, []⟩
  Do := fun _ => .error (.library (goStr "dial tcp: no route to host"))

/-- A world whose `config.json` holds the key `"k"` and whose API answers
HTTP 403 with the body `"Invalid API key"`. -/
def worldForbidden : World where
  Atoi := strconvAtoi
  ReadFile := fun _ => .ok (goBytes "\x7b\"api_key\": \"k\"\x7d")
  Unmarshal := fun _ _ => (⟨goStr "k"⟩, none)
  NewRequest := fun method url => .ok ⟨method, url, []⟩
  Do := fun _ => .ok ⟨403, (goBytes "Invalid API key", none)⟩

/-- The widgets with the length text `s`, all boxes unchecked and an empty label. -/
def uiWithLength (s : String) : Ui := ⟨goStr s, false, false, false, []⟩

/-! ## The per-byte mapping in the specification's words -/

/-- The character assigned to a byte `b`, as the specification words it:
class `b % 4`; class 0 gives `'a' + b % 26`, class 1 gives `'A' + b % 26`,
class 2 gives `'0' + b % 10` when numbers are enabled and `'a' + b % 26`
otherwise, class 3 gives the character at index `b % 8` of `"!@#$%^&*"` when
special characters are enabled and `'a' + b % 26` otherwise. -/
def specChar (b : Nat) (includeSpecialChar includeNumbers : Bool) : Nat :=
  if b % 4 = 0 then 'a'.toNat + b % 26
  else if b % 4 = 1 then 'A'.toNat + b % 26
  else if b % 4 = 2 then
    if includeNumbers then '0'.toNat + b % 10 else 'a'.toNat + b % 26
  else
    if includeSpecialChar then ("!@#$%^&*".toList.getD (b % 8) ' ').toNat
    else 'a'.toNat + b % 26

/-- The start-uppercase character the specification assigns to a first byte `b`. -/
def specUpper (b : Nat) : Nat := 'A'.toNat + b % 26

/-- The byte `c` is an ASCII digit `'0'`-`'9'`. -/
def isDigit (c : Nat) : Prop := '0'.toNat ≤ c ∧ c ≤ '9'.toNat

instance (c : Nat) : Decidable (isDigit c) := by
  unfold isDigit
  infer_instance

/-- The byte `c` is an ASCII lowercase letter `'a'`-`'z'`. -/
def isLower (c : Nat) : Prop := 'a'.toNat ≤ c ∧ c ≤ 'z'.toNat

instance (c : Nat) : Decidable (isLower c) := by
  unfold isLower
  infer_instance

/-- The byte `c` is an ASCII uppercase letter `'A'`-`'Z'`. -/
def isUpper (c : Nat) : Prop := 'A'.toNat ≤ c ∧ c ≤ 'Z'.toNat

instance (c : Nat) : Decidable (isUpper c) := by
  unfold isUpper
  infer_instance

/-- The byte `c` is one of the eight characters of `"!@#$%^&*"`. -/
def isSpecial (c : Nat) : Prop := c ∈ specialChars

instance (c : Nat) : Decidable (isSpecial c) := by
  unfold isSpecial
  infer_instance

/-- The specification's per-byte mapping with the character codes written out. -/
def specCode (b : Nat) (sp nu : Bool) : Nat :=
  if b % 4 = 0 then 97 + b % 26
  else if b % 4 = 1 then 65 + b % 26
  else if b % 4 = 2 then
    if nu then 48 + b % 10 else 97 + b % 26
  else
    if sp then (if b % 8 = 3 then 36 else 42)
    else 97 + b % 26

/-- The list of bytes read by the first loop, as `int` values. -/
def toInts (bs : List Byte) : List Int := bs.map (fun b => ((b.val : Nat) : Int))

/-- The password the specification describes for the bytes `bs` that are
consumed: each byte mapped by `specChar`, with the first character replaced by
`specUpper` of the first byte when start-with-uppercase is requested. -/
def specPassword (bs : List Byte) (startUppercase sp nu : Bool) : GoString :=
  match startUppercase, bs with
  | true, b :: rest => specUpper b.val :: rest.map (fun b => specChar b.val sp nu)
  | _, _ => bs.map (fun b => specChar b.val sp nu)

/-! ## Auxiliary lemmas -/

theorem tmod_natCast (b k : Nat) : Int.tmod (b : Int) (k : Int) = ((b % k : Nat) : Int) :=
  (Int.ofNat_tmod b k).symm

theorem rune_small (x : Int) (h0 : 0 ≤ x) (h : x < 128) : rune x = x := by
  unfold rune
  omega

theorem runeToString_ascii (n : Nat) (h : n < 128) : runeToString (n : Int) = [n] := by
  unfold runeToString
  have h1 : ¬ ((n : Int) < 0 ∨ 0x10FFFF < (n : Int) ∨ (0xD800 ≤ (n : Int) ∧ (n : Int) ≤ 0xDFFF)) := by
    omega
  simp only [h1, if_false, Int.toNat_ofNat]
  simp [h]

theorem specialChars_eq : specialChars = [33, 64, 35, 36, 37, 94, 38, 42] := by rfl

theorem special_getD (k : Nat) (hk : k < 8) :
    ("!@#$%^&*".toList.getD k ' ').toNat = specialChars.getD k 0 ∧
      specialChars[k]? = some (specialChars.getD k 0) ∧ specialChars.getD k 0 < 128 := by
  rw [specialChars_eq]
  interval_cases k <;> refine ⟨by rfl, by rfl, by decide⟩

theorem specialChars_length : specialChars.length = 8 := by rfl

theorem canonical_api_key : canonicalMIMEHeaderKey (goStr "x-api-key") = goStr "X-Api-Key" := by
  rfl

theorem char_a : 'a'.toNat = 97 := by rfl

theorem char_A : 'A'.toNat = 65 := by rfl

theorem char_0 : '0'.toNat = 48 := by rfl

theorem special_class3 (b : Nat) (h : b % 4 = 3) :
    specialChars.getD (b % 8) 0 = if b % 8 = 3 then 36 else 42 := by
  have h8 : b % 8 = 3 ∨ b % 8 = 7 := by omega
  rw [specialChars_eq]
  rcases h8 with h8 | h8 <;> rw [h8] <;> rfl

theorem specChar_eq_specCode (b : Nat) (sp nu : Bool) : specChar b sp nu = specCode b sp nu := by
  unfold specChar specCode
  rw [char_a, char_A, char_0, (special_getD (b % 8) (Nat.mod_lt _ (by decide))).1]
  by_cases h3 : b % 4 = 3
  · rw [special_class3 b h3]
  · split_ifs <;> first | rfl | (exfalso; omega)

theorem specCode_lt (b : Nat) (sp nu : Bool) : specCode b sp nu < 128 := by
  unfold specCode
  split_ifs <;> omega

theorem specChar_lt (b : Nat) (sp nu : Bool) : specChar b sp nu < 128 := by
  rw [specChar_eq_specCode]
  exact specCode_lt b sp nu

theorem rune_tmod_add (b k c : Nat) (hk : 0 < k) (h : k + c ≤ 128) :
    rune (Int.tmod (b : Int) (k : Int) + (c : Int)) = ((c + b % k : Nat) : Int) := by
  rw [tmod_natCast]
  have hlt : b % k < k := Nat.mod_lt _ hk
  rw [rune_small _ (by omega) (by omega)]
  omega

theorem indexInt_specialChars (b : Nat) :
    indexInt specialChars (Int.tmod (b : Int) (specialChars.length : Int))
      = .ok (specialChars.getD (b % 8) 0) := by
  rw [specialChars_length]
  have t8 : Int.tmod (b : Int) ((8 : Nat) : Int) = ((b % 8 : Nat) : Int) := tmod_natCast b 8
  rw [t8]
  unfold indexInt index
  have hn : ¬ (((b % 8 : Nat) : Int) < 0) := by omega
  rw [if_neg hn, Int.toNat_ofNat, (special_getD (b % 8) (Nat.mod_lt _ (by decide))).2.1]

theorem switchChar_natCast (b : Nat) (sp nu : Bool) :
    switchChar (b : Int) sp nu = .ok ((specChar b sp nu : Nat) : Int) := by
  rw [specChar_eq_specCode]
  have t4 : Int.tmod (b : Int) 4 = ((b % 4 : Nat) : Int) := tmod_natCast b 4
  have r97 : rune (Int.tmod (b : Int) 26 + 97) = ((97 + b % 26 : Nat) : Int) :=
    rune_tmod_add b 26 97 (by decide) (by decide)
  have r65 : rune (Int.tmod (b : Int) 26 + 65) = ((65 + b % 26 : Nat) : Int) :=
    rune_tmod_add b 26 65 (by decide) (by decide)
  have r48 : rune (Int.tmod (b : Int) 10 + 48) = ((48 + b % 10 : Nat) : Int) :=
    rune_tmod_add b 10 48 (by decide) (by decide)
  unfold switchChar specCode
  simp only [t4, r97, r65, r48]
  have hm : b % 4 = 0 ∨ b % 4 = 1 ∨ b % 4 = 2 ∨ b % 4 = 3 := by omega
  rcases hm with h | h | h | h
  · simp [h]
  · simp [h]
  · cases nu <;> simp [h]
  · have h8 : b % 8 = 3 ∨ b % 8 = 7 := by omega
    have hi := indexInt_specialChars b
    have r36 : rune 36 = 36 := rune_small 36 (by decide) (by decide)
    have r42 : rune 42 = 42 := rune_small 42 (by decide) (by decide)
    rcases h8 with h8 | h8
    · have hs : specialChars.getD 3 0 = 36 := by rw [specialChars_eq]; rfl
      rw [h8, hs] at hi
      cases sp <;> simp [h, h8, hi, r36, bind, Except.bind]
    · have hs : specialChars.getD 7 0 = 42 := by rw [specialChars_eq]; rfl
      rw [h8, hs] at hi
      cases sp <;> simp [h, h8, hi, r42, bind, Except.bind]

theorem parseLoop_inv (data : List Byte) :
    ∀ (n i : Nat) (qn : List Int), i + n ≤ data.length → i + n ≤ qn.length →
      ∃ qn', parseLoop data n i qn = .ok qn' ∧ qn'.length = qn.length ∧
        (∀ j, j < i → qn'[j]? = qn[j]?) ∧
        (∀ j, i ≤ j → j < i + n → qn'[j]? = (toInts data)[j]?) ∧
        (∀ j, i + n ≤ j → qn'[j]? = qn[j]?) := by
  intro n
  induction n with
  | zero =>
    intro i qn _ _
    exact ⟨qn, rfl, rfl, fun _ _ => rfl, fun j h1 h2 => by omega, fun _ _ => rfl⟩
  | succ n ih =>
    intro i qn hd hq
    have hi : i < data.length := by omega
    have hidx : index data i = .ok (data.get ⟨i, hi⟩) := by
      unfold index
      rw [List.getElem?_eq_getElem hi]
      rfl
    have hasg : assignIndex qn i (((data.get ⟨i, hi⟩).val : Nat) : Int)
        = .ok (qn.set i (((data.get ⟨i, hi⟩).val : Nat) : Int)) := by
      unfold assignIndex
      rw [if_pos (by omega)]
    obtain ⟨qn', hrun, hlen, hlo, hmid, hhi⟩ :=
      ih (i + 1) (qn.set i (((data.get ⟨i, hi⟩).val : Nat) : Int)) (by omega)
        (by rw [List.length_set]; omega)
    refine ⟨qn', ?_, ?_, ?_, ?_, ?_⟩
    · simp only [parseLoop, hidx, hasg, bind, Except.bind]
      exact hrun
    · rw [hlen, List.length_set]
    · intro j hj
      rw [hlo j (by omega), List.getElem?_set_ne (by omega)]
    · intro j h1 h2
      by_cases hji : j = i
      · subst hji
        rw [hlo j (by omega), List.getElem?_set_self (by omega)]
        simp [toInts, List.getElem?_eq_getElem hi]
      · exact hmid j (by omega) (by omega)
    · intro j hj
      rw [hhi j (by omega), List.getElem?_set_ne (by omega)]

theorem parseLoop_total (data : List Byte) (n : Nat) (h : n ≤ data.length) :
    parseLoop data n 0 (List.replicate n 0) = .ok (toInts (data.take n)) := by
  obtain ⟨qn', hrun, hlen, _, hmid, _⟩ :=
    parseLoop_inv data n 0 (List.replicate n 0) (by omega) (by simp)
  rw [hrun]
  congr 1
  apply List.ext_getElem?
  intro j
  by_cases hj : j < n
  · rw [hmid j (by omega) (by omega)]
    simp [toInts, List.getElem?_take, hj]
  · have h1 : qn'.length ≤ j := by rw [hlen]; simp; omega
    have h2 : (toInts (List.take n data)).length ≤ j := by
      simp [toInts]; omega
    rw [List.getElem?_eq_none h1, List.getElem?_eq_none h2]

theorem parseLoop_short (data : List Byte) :
    ∀ (n i : Nat) (qn : List Int), i ≤ data.length → data.length < i + n → i + n ≤ qn.length →
      parseLoop data n i qn = .error (.indexOutOfRange (data.length : Int) data.length) := by
  intro n
  induction n with
  | zero => intro i qn h1 h2 _; omega
  | succ n ih =>
    intro i qn h1 h2 hq
    by_cases hi : i < data.length
    · have hidx : index data i = .ok (data.get ⟨i, hi⟩) := by
        unfold index
        rw [List.getElem?_eq_getElem hi]
        rfl
      have hasg : assignIndex qn i (((data.get ⟨i, hi⟩).val : Nat) : Int)
          = .ok (qn.set i (((data.get ⟨i, hi⟩).val : Nat) : Int)) := by
        unfold assignIndex
        rw [if_pos (by omega)]
      simp only [parseLoop, hidx, hasg, bind, Except.bind]
      exact ih (i + 1) _ (by omega) (by omega) (by rw [List.length_set]; omega)
    · have hie : i = data.length := by omega
      have hidx : index data i = .error (.indexOutOfRange (data.length : Int) data.length) := by
        unfold index
        rw [List.getElem?_eq_none (by omega), hie]
      simp only [parseLoop, hidx, bind, Except.bind]

theorem index_toInts (bs : List Byte) (i : Nat) (hi : i < bs.length) :
    index (toInts bs) i = .ok (((bs.get ⟨i, hi⟩).val : Nat) : Int) := by
  unfold index toInts
  rw [List.getElem?_map, List.getElem?_eq_getElem hi]
  rfl

theorem buildLoop_ok (bs : List Byte) (sp nu : Bool) :
    ∀ (n i : Nat) (pw : GoString), i + n ≤ bs.length →
      buildLoop (toInts bs) sp nu n i pw
        = .ok (pw ++ ((bs.drop i).take n).map (fun b => specChar b.val sp nu)) := by
  intro n
  induction n with
  | zero => intro i pw _; simp [buildLoop]
  | succ n ih =>
    intro i pw h
    have hi : i < bs.length := by omega
    simp only [buildLoop, index_toInts bs i hi, switchChar_natCast, bind, Except.bind,
      runeToString_ascii _ (specChar_lt _ sp nu)]
    rw [ih (i + 1) _ (by omega), List.drop_eq_getElem_cons hi, List.take_succ_cons,
      List.map_cons, List.append_assoc]
    rfl

theorem processPasswordData_ok (data : List Byte) (su sp nu : Bool) (n : Nat)
    (h : n ≤ data.length) :
    processPasswordData data su sp nu (n : Int) = .ok (specPassword (data.take n) su sp nu) := by
  unfold processPasswordData
  have hn : ¬ ((n : Int) < 0) := by omega
  have hlen : (data.take n).length = n := by
    rw [List.length_take]; omega
  rw [if_neg hn, Int.toNat_ofNat, parseLoop_total data n h]
  generalize data.take n = bs at hlen
  subst hlen
  have hb := buildLoop_ok bs sp nu bs.length 0 [] (by omega)
  rw [List.drop_zero, List.nil_append, List.take_length] at hb
  simp only [bind, Except.bind, hb]
  cases bs with
  | nil => cases su <;> simp [specPassword]
  | cons b rest =>
    cases su
    · simp [specPassword]
    · have hi : index (toInts (b :: rest)) 0 = .ok ((b.val : Nat) : Int) :=
        index_toInts (b :: rest) 0 (by simp)
      have hr : rune (Int.tmod ((b.val : Nat) : Int) 26 + 65) = ((65 + b.val % 26 : Nat) : Int) :=
        rune_tmod_add b.val 26 65 (by decide) (by decide)
      have hs : runeToString ((65 + b.val % 26 : Nat) : Int) = [65 + b.val % 26] :=
        runeToString_ascii _ (by omega)
      simp only [hi, hr, hs, sliceFrom, specPassword, specUpper, char_A]
      simp

theorem processPasswordData_short (data : List Byte) (su sp nu : Bool) (n : Nat)
    (h : data.length < n) :
    processPasswordData data su sp nu (n : Int)
      = .error (.indexOutOfRange (data.length : Int) data.length) := by
  unfold processPasswordData
  have hn : ¬ ((n : Int) < 0) := by omega
  rw [if_neg hn, Int.toNat_ofNat,
    parseLoop_short data n 0 _ (by omega) (by omega) (by simp)]
  rfl

theorem processPasswordData_ok_int (data : List Byte) (su sp nu : Bool) (L : Int)
    (h0 : 0 ≤ L) (h : L ≤ (data.length : Int)) :
    processPasswordData data su sp nu L = .ok (specPassword (data.take L.toNat) su sp nu) := by
  obtain ⟨n, rfl⟩ := Int.eq_ofNat_of_zero_le h0
  rw [Int.toNat_ofNat]
  exact processPasswordData_ok data su sp nu n (by omega)

theorem processPasswordData_short_int (data : List Byte) (su sp nu : Bool) (L : Int)
    (h : (data.length : Int) < L) :
    processPasswordData data su sp nu L
      = .error (.indexOutOfRange (data.length : Int) data.length) := by
  obtain ⟨n, rfl⟩ := Int.eq_ofNat_of_zero_le (show 0 ≤ L by omega)
  exact processPasswordData_short data su sp nu n (by omega)

theorem specPassword_length (bs : List Byte) (su sp nu : Bool) :
    (specPassword bs su sp nu).length = bs.length := by
  cases su <;> cases bs <;> simp [specPassword]

theorem specPassword_false (bs : List Byte) (sp nu : Bool) :
    specPassword bs false sp nu = bs.map (fun b => specChar b.val sp nu) := by
  cases bs <;> rfl

theorem specPassword_getElem? (bs : List Byte) (su sp nu : Bool) (i : Nat)
    (h : 1 ≤ i ∨ su = false) :
    (specPassword bs su sp nu)[i]? = bs[i]?.map (fun b => specChar b.val sp nu) := by
  cases su with
  | false => rw [specPassword_false, List.getElem?_map]
  | true =>
    cases bs with
    | nil => simp [specPassword]
    | cons b rest =>
      cases i with
      | zero => simp at h
      | succ j => simp [specPassword]

theorem specPassword_mem (bs : List Byte) (su sp nu : Bool) (c : Nat)
    (h : c ∈ specPassword bs su sp nu) :
    (∃ b : Nat, c = specCode b sp nu) ∨ (∃ b : Nat, c = 65 + b % 26) := by
  cases su with
  | false =>
    have h1 : c ∈ bs.map (fun b => specChar b.val sp nu) := by
      rw [specPassword_false] at h
      exact h
    obtain ⟨b, _, rfl⟩ := List.mem_map.1 h1
    exact Or.inl ⟨b.val, specChar_eq_specCode _ _ _⟩
  | true =>
    cases bs with
    | nil => simp [specPassword] at h
    | cons b rest =>
      have h1 : c = specUpper b.val ∨ c ∈ rest.map (fun b => specChar b.val sp nu) := by
        simpa [specPassword] using h
      rcases h1 with h1 | h1
      · exact Or.inr ⟨b.val, by rw [h1, specUpper, char_A]⟩
      · obtain ⟨b', _, rfl⟩ := List.mem_map.1 h1
        exact Or.inl ⟨b'.val, specChar_eq_specCode _ _ _⟩

theorem getElem?_take_of_lt (data : List Byte) (L : Int) (i : Nat) (hi : (i : Int) < L) :
    (data.take L.toNat)[i]? = data[i]? := by
  rw [List.getElem?_take]
  rw [if_pos (by omega)]

theorem output_at_index (data : List Byte) (su sp nu : Bool) (L : Int)
    (h : L ≤ (data.length : Int)) (i : Nat) (hi : (i : Int) < L)
    (hno : 1 ≤ i ∨ su = false) :
    ∃ pw b, processPasswordData data su sp nu L = .ok pw ∧ data[i]? = some b ∧
      pw[i]? = some (specChar b.val sp nu) := by
  have hlt : i < data.length := by omega
  refine ⟨_, data.get ⟨i, hlt⟩,
    processPasswordData_ok_int data su sp nu L (by omega) h, ?_, ?_⟩
  · rw [List.getElem?_eq_getElem hlt]; rfl
  · rw [specPassword_getElem? _ _ _ _ i hno, getElem?_take_of_lt data L i hi,
      List.getElem?_eq_getElem hlt]
    rfl

theorem isDigit_iff (c : Nat) : isDigit c ↔ 48 ≤ c ∧ c ≤ 57 := Iff.rfl

theorem isLower_iff (c : Nat) : isLower c ↔ 97 ≤ c ∧ c ≤ 122 := Iff.rfl

theorem isUpper_iff (c : Nat) : isUpper c ↔ 65 ≤ c ∧ c ≤ 90 := Iff.rfl

theorem isSpecial_iff (c : Nat) :
    isSpecial c ↔ c = 33 ∨ c = 64 ∨ c = 35 ∨ c = 36 ∨ c = 37 ∨ c = 94 ∨ c = 38 ∨ c = 42 := by
  unfold isSpecial
  rw [specialChars_eq]
  simp

theorem evenDigits_eq : goStr "02468" = [48, 50, 52, 54, 56] := by rfl

theorem oddUppers_eq :
    goStr "BDFHJLNPRTVXZ" = [66, 68, 70, 72, 74, 76, 78, 80, 82, 84, 86, 88, 90] := by rfl

theorem specCode_parity (b : Nat) (sp nu : Bool) :
    (97 ≤ specCode b sp nu ∧ specCode b sp nu ≤ 122 → (specCode b sp nu - 97) % 2 = b % 2) ∧
    (65 ≤ specCode b sp nu ∧ specCode b sp nu ≤ 90 → (specCode b sp nu - 65) % 2 = b % 2) ∧
    (48 ≤ specCode b sp nu ∧ specCode b sp nu ≤ 57 → (specCode b sp nu - 48) % 2 = b % 2) ∧
    (65 ≤ specCode b sp nu ∧ specCode b sp nu ≤ 90 → b % 2 = 1) ∧
    (48 ≤ specCode b sp nu ∧ specCode b sp nu ≤ 57 → b % 2 = 0) := by
  unfold specCode
  split_ifs <;> omega

theorem mem_evenDigits (d : Nat) (h1 : 48 ≤ d) (h2 : d ≤ 57) (h3 : (d - 48) % 2 = 0) :
    d ∈ goStr "02468" := by
  rw [evenDigits_eq]
  obtain ⟨k, rfl⟩ : ∃ k, d = 48 + k := ⟨d - 48, by omega⟩
  have hk : k < 10 := by omega
  interval_cases k <;> simp at h3 ⊢

theorem mem_oddUppers (c : Nat) (h1 : 65 ≤ c) (h2 : c ≤ 90) (h3 : (c - 65) % 2 = 1) :
    c ∈ goStr "BDFHJLNPRTVXZ" := by
  rw [oddUppers_eq]
  obtain ⟨k, rfl⟩ : ∃ k, c = 65 + k := ⟨c - 65, by omega⟩
  have hk : k < 26 := by omega
  interval_cases k <;> simp at h3 ⊢

/-! ## Claims about processPasswordData -/

/-- C1: for every buffer, flags and length `L` with `0 ≤ L ≤ len(data)`,
`processPasswordData` returns a string of exactly `L` bytes, all of them ASCII,
and `L = 0` yields the empty string. -/
theorem C1_output_length (data : List Byte) (su sp nu : Bool) (L : Int)
    (h0 : 0 ≤ L) (h : L ≤ (data.length : Int)) :
    ∃ pw, processPasswordData data su sp nu L = .ok pw ∧ (pw.length : Int) = L ∧
      (∀ c ∈ pw, c < 128) ∧ (L = 0 → pw = []) := by
  refine ⟨_, processPasswordData_ok_int data su sp nu L h0 h, ?_, ?_, ?_⟩
  · rw [specPassword_length, List.length_take]
    omega
  · intro c hc
    rcases specPassword_mem _ _ _ _ c hc with ⟨b, rfl⟩ | ⟨b, rfl⟩
    · exact specCode_lt b sp nu
    · omega
  · intro hL
    apply List.eq_nil_of_length_eq_zero
    rw [specPassword_length, List.length_take]
    omega

theorem C1_output_length_witness :
    ((0 : Int) ≤ 3 ∧ (3 : Int) ≤ ((([98, 1, 55] : List Byte).length : Nat) : Int) ∧
      ∃ pw, processPasswordData [98, 1, 55] true true true 3 = .ok pw ∧ (pw.length : Int) = 3 ∧
        (∀ c ∈ pw, c < 128) ∧ ((3 : Int) = 0 → pw = [])) ∧
    ((0 : Int) ≤ 0 ∧ (0 : Int) ≤ ((([] : List Byte).length : Nat) : Int) ∧
      ∃ pw, processPasswordData [] true true true 0 = .ok pw ∧ (pw.length : Int) = 0 ∧
        (∀ c ∈ pw, c < 128) ∧ ((0 : Int) = 0 → pw = [])) ∧
    processPasswordData [98, 1, 55] true true true 3 = .ok (goStr "UB*") ∧
    processPasswordData [] true true true 0 = .ok (goStr "") :=
  ⟨⟨by decide, by decide,
      C1_output_length [98, 1, 55] true true true 3 (by decide) (by decide)⟩,
   ⟨by decide, by decide, C1_output_length [] true true true 0 (by decide) (by decide)⟩,
   by rfl, by rfl⟩

/-- C2: for every buffer, flags, length `L ≤ len(data)` and index `i < L` that
is not overridden (`i ≥ 1`, or start-with-uppercase off), byte `i` of the result
is the specification's character for `data[i]`. -/
theorem C2_per_byte_mapping (data : List Byte) (su sp nu : Bool) (L : Int)
    (h : L ≤ (data.length : Int)) (i : Nat) (hi : (i : Int) < L)
    (hno : 1 ≤ i ∨ su = false) :
    ∃ pw b, processPasswordData data su sp nu L = .ok pw ∧ data[i]? = some b ∧
      pw[i]? = some (specChar b.val sp nu) :=
  output_at_index data su sp nu L h i hi hno

theorem C2_per_byte_mapping_witness :
    processPasswordData [98, 1, 55] false false true 3 = .ok (goStr "8Bd") ∧
    ((3 : Int) ≤ ((([98, 1, 55] : List Byte).length : Nat) : Int) ∧ ((2 : Nat) : Int) < 3 ∧
      (1 ≤ 2 ∨ false = false) ∧
      ∃ pw b, processPasswordData [98, 1, 55] false false true 3 = .ok pw ∧
        ([98, 1, 55] : List Byte)[2]? = some b ∧ pw[2]? = some (specChar b.val false true)) ∧
    specChar 98 false true = '8'.toNat ∧ specChar 1 false true = 'B'.toNat ∧
    specChar 55 false true = 'd'.toNat :=
  ⟨by rfl,
   ⟨by decide, by decide, Or.inl (by decide),
    C2_per_byte_mapping [98, 1, 55] false false true 3 (by decide) 2 (by decide)
      (Or.inl (by decide))⟩,
   by rfl, by rfl, by rfl⟩

/-- C3: for every buffer, every setting of the other two flags and every `L`
with `1 ≤ L ≤ len(data)`: with start-with-uppercase on, the first byte of the
result is `'A' + data[0] % 26`, an uppercase letter, and every byte at an index
`≥ 1` is the one produced with start-with-uppercase off. -/
theorem C3_start_uppercase (data : List Byte) (sp nu : Bool) (L : Int)
    (h1 : 1 ≤ L) (h : L ≤ (data.length : Int)) :
    ∃ pwT pwF b0, data[0]? = some b0 ∧
      processPasswordData data true sp nu L = .ok pwT ∧
      processPasswordData data false sp nu L = .ok pwF ∧
      pwT[0]? = some ('A'.toNat + b0.val % 26) ∧ isUpper ('A'.toNat + b0.val % 26) ∧
      ∀ i, 1 ≤ i → pwT[i]? = pwF[i]? := by
  have hlt : 0 < data.length := by omega
  refine ⟨_, _, data.get ⟨0, hlt⟩, ?_,
    processPasswordData_ok_int data true sp nu L (by omega) h,
    processPasswordData_ok_int data false sp nu L (by omega) h, ?_, ?_, ?_⟩
  · rw [List.getElem?_eq_getElem hlt]; rfl
  · obtain ⟨n, rfl⟩ := Int.eq_ofNat_of_zero_le (show 0 ≤ L by omega)
    rw [Int.toNat_ofNat]
    cases n with
    | zero => omega
    | succ m =>
      cases data with
      | nil => simp at hlt
      | cons b rest => simp [specPassword, specUpper]
  · rw [isUpper_iff, char_A]
    omega
  · intro i hi
    rw [specPassword_getElem? _ _ _ _ i (Or.inl hi),
      specPassword_getElem? _ _ _ _ i (Or.inr rfl)]

theorem C3_start_uppercase_witness :
    ((1 : Int) ≤ 3 ∧ (3 : Int) ≤ ((([98, 1, 55] : List Byte).length : Nat) : Int) ∧
      ∃ pwT pwF b0, ([98, 1, 55] : List Byte)[0]? = some b0 ∧
        processPasswordData [98, 1, 55] true true true 3 = .ok pwT ∧
        processPasswordData [98, 1, 55] false true true 3 = .ok pwF ∧
        pwT[0]? = some ('A'.toNat + b0.val % 26) ∧ isUpper ('A'.toNat + b0.val % 26) ∧
        ∀ i, 1 ≤ i → pwT[i]? = pwF[i]?) ∧
    processPasswordData [98, 1, 55] true true true 3 = .ok (goStr "UB*") ∧
    processPasswordData [98, 1, 55] false true true 3 = .ok (goStr "8B*") :=
  ⟨⟨by decide, by decide, C3_start_uppercase [98, 1, 55] true true 3 (by decide) (by decide)⟩,
   by rfl, by rfl⟩

/-- C4: for every buffer, flags and length `L ≤ len(data)`: with numbers
disabled no byte of the result is a digit, and with special characters disabled
no byte of the result is one of `"!@#$%^&*"`. -/
theorem C4_disabled_classes (data : List Byte) (su sp nu : Bool) (L : Int)
    (h0 : 0 ≤ L) (h : L ≤ (data.length : Int)) :
    ∃ pw, processPasswordData data su sp nu L = .ok pw ∧
      (nu = false → ∀ c ∈ pw, ¬ isDigit c) ∧
      (sp = false → ∀ c ∈ pw, ¬ isSpecial c) := by
  refine ⟨_, processPasswordData_ok_int data su sp nu L h0 h, ?_, ?_⟩
  · intro hnu c hc
    subst hnu
    rw [isDigit_iff]
    rcases specPassword_mem _ _ _ _ c hc with ⟨b, rfl⟩ | ⟨b, rfl⟩
    · unfold specCode
      simp only [Bool.false_eq_true, if_false]
      split_ifs <;> omega
    · omega
  · intro hsp c hc
    subst hsp
    rw [isSpecial_iff]
    rcases specPassword_mem _ _ _ _ c hc with ⟨b, rfl⟩ | ⟨b, rfl⟩
    · unfold specCode
      simp only [Bool.false_eq_true, if_false]
      split_ifs <;> omega
    · omega

theorem C4_disabled_classes_witness :
    ((0 : Int) ≤ 3 ∧ (3 : Int) ≤ ((([98, 1, 55] : List Byte).length : Nat) : Int) ∧
      ∃ pw, processPasswordData [98, 1, 55] true false false 3 = .ok pw ∧
        (false = false → ∀ c ∈ pw, ¬ isDigit c) ∧
        (false = false → ∀ c ∈ pw, ¬ isSpecial c)) ∧
    processPasswordData [98, 1, 55] true false false 3 = .ok (goStr "UBd") ∧
    processPasswordData [98, 1, 55] false false false 3 = .ok (goStr "uBd") :=
  ⟨⟨by decide, by decide,
      C4_disabled_classes [98, 1, 55] true false false 3 (by decide) (by decide)⟩,
   by rfl, by rfl⟩

theorem panic_iff_short_of_make (data : List Byte) (su sp nu : Bool) (L : Int) (h0 : 0 ≤ L) :
    ((∃ idx len, processPasswordData data su sp nu L = .error (.indexOutOfRange idx len))
        ↔ (data.length : Int) < L) ∧
    ((∃ pw, processPasswordData data su sp nu L = .ok pw) ↔ L ≤ (data.length : Int)) := by
  by_cases h : L ≤ (data.length : Int)
  · have hok := processPasswordData_ok_int data su sp nu L h0 h
    constructor
    · constructor
      · rintro ⟨idx, len, he⟩
        rw [hok] at he
        cases he
      · intro hlt; omega
    · exact ⟨fun _ => h, fun _ => ⟨_, hok⟩⟩
  · have herr := processPasswordData_short_int data su sp nu L (by omega)
    constructor
    · exact ⟨fun _ => by omega, fun _ => ⟨_, _, herr⟩⟩
    · constructor
      · rintro ⟨pw, hp⟩
        rw [herr] at hp
        cases hp
      · intro hle; omega

theorem onRuntime_of_le (data : List Byte) (su sp nu : Bool) (L : Int) (h0 : 0 ≤ L)
    (h : sizeofInt * L ≤ maxAlloc) :
    processPasswordDataOnRuntime data su sp nu L = processPasswordData data su sp nu L := by
  unfold processPasswordDataOnRuntime
  rw [if_neg (by omega)]

theorem onRuntime_of_gt (data : List Byte) (su sp nu : Bool) (L : Int)
    (h : maxAlloc < sizeofInt * L) :
    processPasswordDataOnRuntime data su sp nu L = .error .makesliceLenOutOfRange := by
  unfold processPasswordDataOnRuntime
  rw [if_pos (Or.inr h)]

/-- C5 as stated fails: for the buffer `[98, 1, 55]` and the non-negative length
`2 ^ 62 > len(data)`, the call panics in `make` with `makeslice: len out of
range` and not with an out-of-range access. -/
theorem C5_counterexample_huge_length :
    (0 : Int) ≤ 2 ^ 62 ∧
    processPasswordDataOnRuntime [98, 1, 55] false true true (2 ^ 62)
      = .error .makesliceLenOutOfRange ∧
    ¬ ((∃ idx len, processPasswordDataOnRuntime [98, 1, 55] false true true (2 ^ 62)
          = .error (.indexOutOfRange idx len))
        ↔ ((([98, 1, 55] : List Byte).length : Nat) : Int) < 2 ^ 62) := by
  have hrun : processPasswordDataOnRuntime [98, 1, 55] false true true (2 ^ 62)
      = .error .makesliceLenOutOfRange :=
    onRuntime_of_gt _ _ _ _ _ (by decide)
  refine ⟨by decide, hrun, ?_⟩
  intro hiff
  obtain ⟨idx, len, he⟩ := hiff.2 (by decide)
  rw [hrun] at he
  cases he

/-- C5, amended: for every buffer, flags and non-negative length `L` that
`make([]int, L)` accepts (`8 * L ≤ maxAlloc`), the call panics with an
index-out-of-range access exactly when `L > len(data)` and returns a string
exactly when `L ≤ len(data)`; for every larger `L` it panics in `make` with
`makeslice: len out of range`, whatever the buffer. -/
theorem C5_panic_iff_short (data : List Byte) (su sp nu : Bool) (L : Int) (h0 : 0 ≤ L) :
    (sizeofInt * L ≤ maxAlloc →
      ((∃ idx len, processPasswordDataOnRuntime data su sp nu L
            = .error (.indexOutOfRange idx len))
          ↔ (data.length : Int) < L) ∧
      ((∃ pw, processPasswordDataOnRuntime data su sp nu L = .ok pw)
          ↔ L ≤ (data.length : Int))) ∧
    (maxAlloc < sizeofInt * L →
      processPasswordDataOnRuntime data su sp nu L = .error .makesliceLenOutOfRange) := by
  constructor
  · intro hlim
    rw [onRuntime_of_le data su sp nu L h0 hlim]
    exact panic_iff_short_of_make data su sp nu L h0
  · exact onRuntime_of_gt data su sp nu L

theorem C5_panic_iff_short_witness :
    ((0 : Int) ≤ 4 ∧ sizeofInt * 4 ≤ maxAlloc ∧
      ((∃ idx len, processPasswordDataOnRuntime [98, 1, 55] false true true 4
            = .error (.indexOutOfRange idx len))
          ↔ ((([98, 1, 55] : List Byte).length : Nat) : Int) < 4) ∧
      ((∃ pw, processPasswordDataOnRuntime [98, 1, 55] false true true 4 = .ok pw)
          ↔ (4 : Int) ≤ ((([98, 1, 55] : List Byte).length : Nat) : Int))) ∧
    ((0 : Int) ≤ 2 ^ 46 ∧ maxAlloc < sizeofInt * 2 ^ 46 ∧
      processPasswordDataOnRuntime [98, 1, 55] false true true (2 ^ 46)
        = .error .makesliceLenOutOfRange) ∧
    processPasswordDataOnRuntime [98, 1, 55] false true true 4
      = .error (.indexOutOfRange 3 3) ∧
    processPasswordDataOnRuntime [] false true true 1 = .error (.indexOutOfRange 0 0) ∧
    processPasswordDataOnRuntime [98, 1, 55] false true true 3 = .ok (goStr "8B*") :=
  ⟨⟨by decide, by decide,
      (C5_panic_iff_short [98, 1, 55] false true true 4 (by decide)).1 (by decide)⟩,
   ⟨by decide, by decide,
      (C5_panic_iff_short [98, 1, 55] false true true (2 ^ 46) (by decide)).2 (by decide)⟩,
   by rfl, by rfl, by rfl⟩

/-- C8: for every buffer, flags and length `L ≤ len(data)`, every byte of the
result that belongs to `"!@#$%^&*"` is `'$'` or `'*'`, and none of `'!'`, `'@'`,
`'#'`, `'%'`, `'^'`, `'&'` occurs in the result. -/
theorem C8_reachable_specials (data : List Byte) (su sp nu : Bool) (L : Int)
    (h0 : 0 ≤ L) (h : L ≤ (data.length : Int)) :
    ∃ pw, processPasswordData data su sp nu L = .ok pw ∧
      (∀ c ∈ pw, isSpecial c → c = '$'.toNat ∨ c = '*'.toNat) ∧
      (∀ c ∈ pw, c ≠ '!'.toNat ∧ c ≠ '@'.toNat ∧ c ≠ '#'.toNat ∧ c ≠ '%'.toNat ∧
        c ≠ '^'.toNat ∧ c ≠ '&'.toNat) := by
  refine ⟨_, processPasswordData_ok_int data su sp nu L h0 h, ?_, ?_⟩
  · intro c hc hs
    show c = 36 ∨ c = 42
    rw [isSpecial_iff] at hs
    rcases specPassword_mem _ _ _ _ c hc with ⟨b, rfl⟩ | ⟨b, rfl⟩
    · revert hs
      unfold specCode
      split_ifs <;> omega
    · omega
  · intro c hc
    show c ≠ 33 ∧ c ≠ 64 ∧ c ≠ 35 ∧ c ≠ 37 ∧ c ≠ 94 ∧ c ≠ 38
    rcases specPassword_mem _ _ _ _ c hc with ⟨b, rfl⟩ | ⟨b, rfl⟩
    · unfold specCode
      split_ifs <;> omega
    · omega

theorem C8_reachable_specials_witness :
    ((0 : Int) ≤ 5 ∧ (5 : Int) ≤ ((([3, 7, 11, 255, 98] : List Byte).length : Nat) : Int) ∧
      ∃ pw, processPasswordData [3, 7, 11, 255, 98] false true true 5 = .ok pw ∧
        (∀ c ∈ pw, isSpecial c → c = '$'.toNat ∨ c = '*'.toNat) ∧
        (∀ c ∈ pw, c ≠ '!'.toNat ∧ c ≠ '@'.toNat ∧ c ≠ '#'.toNat ∧ c ≠ '%'.toNat ∧
          c ≠ '^'.toNat ∧ c ≠ '&'.toNat)) ∧
    processPasswordData [3, 7, 11, 255, 98] false true true 5 = .ok (goStr "$*$*8") :=
  ⟨⟨by decide, by decide,
      C8_reachable_specials [3, 7, 11, 255, 98] false true true 5 (by decide) (by decide)⟩,
   by rfl⟩

/-- C9: for every buffer, flags, length `L ≤ len(data)` and index `i < L` that
is not overridden: when byte `i` of the result is a lowercase letter, an
uppercase letter or a digit, its offset from `'a'`, `'A'` or `'0'` has the parity
of `data[i]`; an uppercase letter there is one of `B, D, F, ..., Z`; and every
digit anywhere in the result is one of `0, 2, 4, 6, 8`. -/
theorem C9_half_alphabets (data : List Byte) (su sp nu : Bool) (L : Int)
    (h : L ≤ (data.length : Int)) (i : Nat) (hi : (i : Int) < L)
    (hno : 1 ≤ i ∨ su = false) :
    ∃ pw b c, processPasswordData data su sp nu L = .ok pw ∧ data[i]? = some b ∧
      pw[i]? = some c ∧
      (isLower c → (c - 'a'.toNat) % 2 = b.val % 2) ∧
      (isUpper c → (c - 'A'.toNat) % 2 = b.val % 2) ∧
      (isDigit c → (c - '0'.toNat) % 2 = b.val % 2) ∧
      (isUpper c → c ∈ goStr "BDFHJLNPRTVXZ") ∧
      (∀ d ∈ pw, isDigit d → d ∈ goStr "02468") := by
  obtain ⟨pw, b, hrun, hb, hc⟩ := output_at_index data su sp nu L h i hi hno
  have hpar := specCode_parity b.val sp nu
  rw [specChar_eq_specCode] at hc
  refine ⟨pw, b, _, hrun, hb, hc, ?_, ?_, ?_, ?_, ?_⟩
  · intro hl
    rw [isLower_iff] at hl
    rw [char_a]
    exact hpar.1 hl
  · intro hu
    rw [isUpper_iff] at hu
    rw [char_A]
    exact hpar.2.1 hu
  · intro hd
    rw [isDigit_iff] at hd
    rw [char_0]
    exact hpar.2.2.1 hd
  · intro hu
    rw [isUpper_iff] at hu
    have e1 := hpar.2.1 hu
    have e2 := hpar.2.2.2.1 hu
    exact mem_oddUppers _ hu.1 hu.2 (by omega)
  · intro d hd hdig
    rw [isDigit_iff] at hdig
    rw [processPasswordData_ok_int data su sp nu L (by omega) h] at hrun
    cases hrun
    rcases specPassword_mem _ _ _ _ d hd with ⟨b', rfl⟩ | ⟨b', rfl⟩
    · have hp := specCode_parity b' sp nu
      have e1 := hp.2.2.1 hdig
      have e2 := hp.2.2.2.2 hdig
      exact mem_evenDigits _ hdig.1 hdig.2 (by omega)
    · omega

theorem C9_half_alphabets_witness :
    ((3 : Int) ≤ ((([98, 1, 55] : List Byte).length : Nat) : Int) ∧ ((1 : Nat) : Int) < 3 ∧
      (1 ≤ 1 ∨ true = false) ∧
      ∃ pw b c, processPasswordData [98, 1, 55] true true true 3 = .ok pw ∧
        ([98, 1, 55] : List Byte)[1]? = some b ∧ pw[1]? = some c ∧
        (isLower c → (c - 'a'.toNat) % 2 = b.val % 2) ∧
        (isUpper c → (c - 'A'.toNat) % 2 = b.val % 2) ∧
        (isDigit c → (c - '0'.toNat) % 2 = b.val % 2) ∧
        (isUpper c → c ∈ goStr "BDFHJLNPRTVXZ") ∧
        (∀ d ∈ pw, isDigit d → d ∈ goStr "02468")) ∧
    processPasswordData [98, 1, 55] false true true 3 = .ok (goStr "8B*") :=
  ⟨⟨by decide, by decide, Or.inl (by decide),
      C9_half_alphabets [98, 1, 55] true true true 3 (by decide) 1 (by decide)
        (Or.inl (by decide))⟩,
   by rfl⟩

/-- C10: for every length `L`, flags and two buffers of length at least `L`
that agree on their first `L` bytes, `processPasswordData` gives the same
result on both. -/
theorem C10_surplus_ignored (d1 d2 : List Byte) (su sp nu : Bool) (L : Int)
    (h1 : L ≤ (d1.length : Int)) (h2 : L ≤ (d2.length : Int))
    (hagree : d1.take L.toNat = d2.take L.toNat) :
    processPasswordData d1 su sp nu L = processPasswordData d2 su sp nu L := by
  by_cases h0 : 0 ≤ L
  · rw [processPasswordData_ok_int d1 su sp nu L h0 h1,
      processPasswordData_ok_int d2 su sp nu L h0 h2, hagree]
  · unfold processPasswordData
    rw [if_pos (by omega), if_pos (by omega)]

theorem C10_surplus_ignored_witness :
    (3 : Int) ≤ ((([98, 1, 55, 200, 17] : List Byte).length : Nat) : Int) ∧
    (3 : Int) ≤ ((([98, 1, 55] : List Byte).length : Nat) : Int) ∧
    ([98, 1, 55, 200, 17] : List Byte).take (3 : Int).toNat
      = ([98, 1, 55] : List Byte).take (3 : Int).toNat ∧
    processPasswordData [98, 1, 55, 200, 17] true true true 3
      = processPasswordData [98, 1, 55] true true true 3 :=
  ⟨by decide, by decide, by decide,
   C10_surplus_ignored [98, 1, 55, 200, 17] [98, 1, 55] true true true 3
     (by decide) (by decide) (by decide)⟩

/-! ## Claims about the generate action -/

theorem generate_of_invalid (w : World) (ui : Ui)
    (h : (∃ e, w.Atoi ui.lengthEntry = .error e) ∨
      (∃ n, w.Atoi ui.lengthEntry = .ok n ∧ (n < 0 ∨ 255 < n))) :
    generate w ui
      = ⟨setText ui (goStr "Invalid length. Please enter a number between 0 and 255."),
          [], none⟩ := by
  rcases h with ⟨e, he⟩ | ⟨n, hn, hr⟩
  · simp only [generate, he]
  · have hc : n < 0 ∨ n > 255 := hr
    simp only [generate, hn, if_pos hc]

/-- C6: in the generate action, a length text that does not parse as an
integer, or parses to an integer outside `0..255`, is rejected: afterwards the
label text is the invalid-length message, no call to `loadConfig`,
`GetQuantumNumbers` or `processPasswordData` has been made and nothing
panicked; a text that parses to an integer in `0..255` passes, and the action
goes on to load `config.json`. -/
theorem C6_length_validation (w : World) (ui : Ui) :
    (((∃ e, w.Atoi ui.lengthEntry = .error e) ∨
        (∃ n, w.Atoi ui.lengthEntry = .ok n ∧ (n < 0 ∨ 255 < n))) →
      (generate w ui).ui.passwordLabel
          = goStr "Invalid length. Please enter a number between 0 and 255." ∧
        (generate w ui).calls = [] ∧ (generate w ui).panic = none) ∧
    (∀ n, w.Atoi ui.lengthEntry = .ok n → 0 ≤ n → n ≤ 255 →
      ∃ rest, (generate w ui).calls = Call.loadConfig (goStr "config.json") :: rest) := by
  constructor
  · intro h
    rw [generate_of_invalid w ui h]
    exact ⟨rfl, rfl, rfl⟩
  · intro n hn h0 h255
    have hc : ¬ (n < 0 ∨ n > 255) := by omega
    simp only [generate, hn, if_neg hc]
    split_ifs
    · exact ⟨_, rfl⟩
    · exact ⟨_, rfl⟩
    · split <;> exact ⟨_, rfl⟩

theorem C6_length_validation_witness :
    (worldNoConfig.Atoi (uiWithLength "256").lengthEntry = .ok 256 ∧ (255 : Int) < 256 ∧
      (generate worldNoConfig (uiWithLength "256")).ui.passwordLabel
          = goStr "Invalid length. Please enter a number between 0 and 255." ∧
      (generate worldNoConfig (uiWithLength "256")).calls = [] ∧
      (generate worldNoConfig (uiWithLength "256")).panic = none) ∧
    (worldNoConfig.Atoi (uiWithLength "-1").lengthEntry = .ok (-1) ∧ (-1 : Int) < 0 ∧
      (generate worldNoConfig (uiWithLength "-1")).ui.passwordLabel
          = goStr "Invalid length. Please enter a number between 0 and 255." ∧
      (generate worldNoConfig (uiWithLength "-1")).calls = [] ∧
      (generate worldNoConfig (uiWithLength "-1")).panic = none) ∧
    ((∃ e, worldNoConfig.Atoi (uiWithLength "twelve").lengthEntry = .error e) ∧
      (generate worldNoConfig (uiWithLength "twelve")).ui.passwordLabel
          = goStr "Invalid length. Please enter a number between 0 and 255." ∧
      (generate worldNoConfig (uiWithLength "twelve")).calls = [] ∧
      (generate worldNoConfig (uiWithLength "twelve")).panic = none) ∧
    (worldNoConfig.Atoi (uiWithLength "255").lengthEntry = .ok 255 ∧
      ∃ rest, (generate worldNoConfig (uiWithLength "255")).calls
        = Call.loadConfig (goStr "config.json") :: rest) ∧
    (worldNoConfig.Atoi (uiWithLength "0").lengthEntry = .ok 0 ∧
      ∃ rest, (generate worldNoConfig (uiWithLength "0")).calls
        = Call.loadConfig (goStr "config.json") :: rest) ∧
    (uiWithLength "256").passwordLabel
      ≠ goStr "Invalid length. Please enter a number between 0 and 255." :=
  ⟨⟨rfl, by decide, (C6_length_validation worldNoConfig (uiWithLength "256")).1
      (Or.inr ⟨256, rfl, Or.inr (by decide)⟩)⟩,
   ⟨rfl, by decide, (C6_length_validation worldNoConfig (uiWithLength "-1")).1
      (Or.inr ⟨-1, rfl, Or.inl (by decide)⟩)⟩,
   ⟨⟨_, rfl⟩, (C6_length_validation worldNoConfig (uiWithLength "twelve")).1
      (Or.inl ⟨_, rfl⟩)⟩,
   ⟨rfl, (C6_length_validation worldNoConfig (uiWithLength "255")).2 255 rfl
      (by decide) (by decide)⟩,
   ⟨rfl, (C6_length_validation worldNoConfig (uiWithLength "0")).2 0 rfl
      (by decide) (by decide)⟩,
   by decide⟩

theorem generate_of_config_error (w : World) (ui : Ui) (n : Int)
    (hparse : w.Atoi ui.lengthEntry = .ok n) (h0 : 0 ≤ n) (h255 : n ≤ 255)
    (hcfg : (loadConfig w (goStr "config.json")).2 ≠ none ∨
      (loadConfig w (goStr "config.json")).1.APIKey = []) :
    generate w ui
      = ⟨setText ui (goStr "Add API key to config.json"),
          [Call.loadConfig (goStr "config.json")], none⟩ := by
  have hc : ¬ (n < 0 ∨ n > 255) := by omega
  have hcfg2 : (loadConfig w (goStr "config.json")).2.isSome = true ∨
      (loadConfig w (goStr "config.json")).1.APIKey = [] := by
    rcases hcfg with h | h
    · exact Or.inl (Option.isSome_iff_ne_none.2 h)
    · exact Or.inr h
  simp only [generate, hparse, if_neg hc, if_pos hcfg2]

theorem generate_of_fetch_error (w : World) (ui : Ui) (n : Int)
    (hparse : w.Atoi ui.lengthEntry = .ok n) (h0 : 0 ≤ n) (h255 : n ≤ 255)
    (key : GoString) (hload : loadConfig w (goStr "config.json") = (⟨key⟩, none))
    (hkey : key ≠ []) (data : List Byte) (e : GoError)
    (hget : GetQuantumNumbers w key n (goStr "uint8") 100 = (data, some e)) :
    generate w ui
      = ⟨setText ui (goStr "Error fetching quantum numbers: Add API key to config.json"),
          [Call.loadConfig (goStr "config.json"),
           Call.GetQuantumNumbers key n (goStr "uint8") 100], none⟩ := by
  have hc : ¬ (n < 0 ∨ n > 255) := by omega
  have hcfg : ¬ ((none : Option GoError).isSome = true ∨ key = []) := by
    simp [hkey]
  have herr : (some e).isSome = true := rfl
  simp only [generate, hparse, if_neg hc, hload, if_neg hcfg, hget, herr, if_true]

/-- C7: in the generate action with a valid length: when loading the
configuration fails or the API key is empty, afterwards the label text is
`"Add API key to config.json"` and only `loadConfig` has been called; when
`GetQuantumNumbers` fails, whatever the error, afterwards the label text is
`"Error fetching quantum numbers: Add API key to config.json"` and the calls
made are `loadConfig` and `GetQuantumNumbers`, so `processPasswordData` has not
run. -/
theorem C7_static_error_messages (w : World) (ui : Ui) (n : Int)
    (hparse : w.Atoi ui.lengthEntry = .ok n) (h0 : 0 ≤ n) (h255 : n ≤ 255) :
    (((loadConfig w (goStr "config.json")).2 ≠ none ∨
        (loadConfig w (goStr "config.json")).1.APIKey = []) →
      (generate w ui).ui.passwordLabel = goStr "Add API key to config.json" ∧
        (generate w ui).calls = [Call.loadConfig (goStr "config.json")] ∧
        (generate w ui).panic = none) ∧
    (∀ key, loadConfig w (goStr "config.json") = (⟨key⟩, none) → key ≠ [] →
      ∀ data e, GetQuantumNumbers w key n (goStr "uint8") 100 = (data, some e) →
        (generate w ui).ui.passwordLabel
            = goStr "Error fetching quantum numbers: Add API key to config.json" ∧
          (generate w ui).calls
            = [Call.loadConfig (goStr "config.json"),
               Call.GetQuantumNumbers key n (goStr "uint8") 100] ∧
          (generate w ui).panic = none) := by
  constructor
  · intro hcfg
    rw [generate_of_config_error w ui n hparse h0 h255 hcfg]
    exact ⟨rfl, rfl, rfl⟩
  · intro key hload hkey data e hget
    rw [generate_of_fetch_error w ui n hparse h0 h255 key hload hkey data e hget]
    exact ⟨rfl, rfl, rfl⟩

theorem C7_static_error_messages_witness :
    (worldForbidden.Atoi (uiWithLength "25").lengthEntry = .ok 25 ∧
      loadConfig worldForbidden (goStr "config.json") = (⟨goStr "k"⟩, none) ∧
      GetQuantumNumbers worldForbidden (goStr "k") 25 (goStr "uint8") 100
        = ([], some (.errorf (goStr "API request failed: Invalid API key"))) ∧
      (generate worldForbidden (uiWithLength "25")).ui.passwordLabel
        = goStr "Error fetching quantum numbers: Add API key to config.json" ∧
      (generate worldForbidden (uiWithLength "25")).calls
        = [Call.loadConfig (goStr "config.json"),
           Call.GetQuantumNumbers (goStr "k") 25 (goStr "uint8") 100] ∧
      (generate worldForbidden (uiWithLength "25")).panic = none) ∧
    (worldNoConfig.Atoi (uiWithLength "25").lengthEntry = .ok 25 ∧
      (loadConfig worldNoConfig (goStr "config.json")).2 ≠ none ∧
      (generate worldNoConfig (uiWithLength "25")).ui.passwordLabel
        = goStr "Add API key to config.json" ∧
      (generate worldNoConfig (uiWithLength "25")).calls
        = [Call.loadConfig (goStr "config.json")] ∧
      (generate worldNoConfig (uiWithLength "25")).panic = none) ∧
    (uiWithLength "25").passwordLabel ≠ goStr "Add API key to config.json" :=
  ⟨⟨rfl, rfl, rfl,
    (C7_static_error_messages worldForbidden (uiWithLength "25") 25 rfl (by decide)
      (by decide)).2 (goStr "k") rfl (by decide) [] _ rfl⟩,
   ⟨rfl, by decide,
    (C7_static_error_messages worldNoConfig (uiWithLength "25") 25 rfl (by decide)
      (by decide)).1 (Or.inl (by decide))⟩,
   by decide⟩

end QuantumPass
